import Mathlib

/-!
Verification development for the merlin core tensor-table library.

The development shallowly embeds the data model and operations of the
repository: the tensor-table construction from raw mappings and from
columnar dataframes, table-level validation, backend conversion, the lazy
single-dispatch registry, the TensorFlow column adapter and the UDF
operator.  Components whose implementation files are absent from the
source tree (only their tests and callers are present) are modelled from
the specification; their doc comments say so explicitly.
-/

/-- Modelled from the spec: the two-valued device residency tag
(`Device` enum, host vs accelerator). -/
inductive Device where
  | CPU
  | GPU
deriving DecidableEq

/-- Modelled from the spec: the supported array/tensor backends, one per
Column variant (host arrays, device arrays, and deep-learning framework
tensors). -/
inductive Framework where
  | numpy
  | cupy
  | tensorflow
  | torch
deriving DecidableEq

/-- Element dtypes appearing in the tests of the repository. -/
inductive DType where
  | int32
  | int64
  | float32
  | float64
deriving DecidableEq

/-- Modelled from the spec: a backend-native array, identified by its
backend, device residency, element dtype, and (flattened) element data.
Elements are modelled as rationals since the core only moves data and
never computes over it. -/
structure NPArray where
  framework : Framework
  device : Device
  dtype : DType
  data : List Rat
deriving DecidableEq

/-- The `__values` key ending of the raw-mapping convention. -/
def vSuf : String := "__values"

/-- The `__offsets` key ending of the raw-mapping convention. -/
def oSuf : String := "__offsets"

/-- Whether the string `s` ends with the string `p`. -/
def strEnds (s p : String) : Bool :=
  decide (p.data.length ≤ s.data.length ∧
    s.data.drop (s.data.length - p.data.length) = p.data)

/-- Remove a trailing occurrence of `p` from `s`. -/
def stripSfx (s p : String) : String :=
  String.mk (s.data.take (s.data.length - p.data.length))

/-- The base column name of a raw-mapping key: strip a `__values` or
`__offsets` ending, otherwise the key itself. -/
def baseName (k : String) : String :=
  if strEnds k vSuf then stripSfx k vSuf
  else if strEnds k oSuf then stripSfx k oSuf
  else k

/-- A string that ends with neither reserved key ending. -/
def sufFreeB (s : String) : Bool :=
  !(strEnds s vSuf) && !(strEnds s oSuf)

/-- First-match lookup in an association list keyed by strings
(the behaviour of a Python dict read). -/
def assocLookup {α : Type} (k : String) : List (String × α) → Option α
  | [] => none
  | (k', v) :: rest => if k' = k then some v else assocLookup k rest

/-- Whether the key `k` occurs in the association list. -/
def hasK {α : Type} (k : String) (l : List (String × α)) : Bool :=
  (assocLookup k l).isSome

/-- Whether a string occurs in a list of strings. -/
def elemStr (k : String) : List String → Bool
  | [] => false
  | x :: xs => if x = k then true else elemStr k xs

/-- Whether all strings in the list are pairwise distinct
(Python dict keys are unique). -/
def distinctKeys : List String → Bool
  | [] => true
  | k :: ks => !(elemStr k ks) && distinctKeys ks

/-- Deduplication keeping the first occurrence of each string, with an
accumulator of strings already seen. -/
def dedupGo : List String → List String → List String
  | [], _ => []
  | x :: xs, seen =>
    if elemStr x seen then dedupGo xs seen else x :: dedupGo xs (x :: seen)

/-- Deduplicate a list of strings keeping first occurrences, preserving
order (the order in which a Python dict iterates grouped column names). -/
def dedupFirst (l : List String) : List String :=
  dedupGo l []

/-- Modelled from the spec: a Column wraps one backend array as `values`
plus an optional `offsets` array, present iff the column is ragged. -/
structure TensorColumn where
  values : NPArray
  offsets : Option NPArray
deriving DecidableEq

/-- The backend array type of a column, read from its values array. -/
def TensorColumn.arrayType (c : TensorColumn) : Framework :=
  c.values.framework

/-- The device of a column, determined by inspecting its values array. -/
def TensorColumn.device (c : TensorColumn) : Device :=
  c.values.device

/-- Modelled from the spec: a Tensor Table is an ordered mapping from
column name to Column. -/
structure TensorTable where
  cols : List (String × TensorColumn)
deriving DecidableEq

/-- Validation failures of table construction (spec section 7 taxonomy:
ValidationError variants), carrying the data the error message names. -/
inductive TableError where
  | crossFramework (col : String) (majority : Framework)
  | crossDevice (col : String) (d1 d2 : Device)
  | columnDeviceMismatch (col : String) (d1 d2 : Device)
  | missingColumn (col : String)
deriving DecidableEq

/-- Modelled from the spec: acceptance condition of a raw mapping — every
key is either a bare column name of a fixed column (no reserved ending,
no paired keys) or one half of a `name__values`/`name__offsets` pair of a
ragged column whose base name is itself a plain column name. -/
def goodKeyB {α : Type} (raw : List (String × α)) (k : String) : Bool :=
  if strEnds k vSuf then
    hasK (stripSfx k vSuf ++ oSuf) raw && sufFreeB (stripSfx k vSuf) &&
      !(hasK (stripSfx k vSuf) raw)
  else if strEnds k oSuf then
    hasK (stripSfx k oSuf ++ vSuf) raw && sufFreeB (stripSfx k oSuf) &&
      !(hasK (stripSfx k oSuf) raw)
  else
    !(hasK (k ++ vSuf) raw) && !(hasK (k ++ oSuf) raw)

/-- Modelled from the spec: a raw mapping whose keys follow the
bare-name / `__values`-`__offsets`-pair convention, with unique keys. -/
def wellFormedMapping (raw : List (String × NPArray)) : Bool :=
  distinctKeys (raw.map Prod.fst) && raw.all (fun p => goodKeyB raw p.1)

/-- Modelled from the spec: build one Column from the raw mapping for a
base name: a `name__values`/`name__offsets` pair makes a ragged column
(validating values/offsets device agreement), a bare key a fixed one. -/
def buildColumn (raw : List (String × NPArray)) (n : String) :
    Except TableError TensorColumn :=
  match assocLookup (n ++ vSuf) raw with
  | some v =>
    match assocLookup (n ++ oSuf) raw with
    | some o =>
      if v.device = o.device then .ok ⟨v, some o⟩
      else .error (.columnDeviceMismatch n v.device o.device)
    | none => .ok ⟨v, none⟩
  | none =>
    match assocLookup n raw with
    | some v => .ok ⟨v, none⟩
    | none => .error (.missingColumn n)

/-- Build the columns of a table for a list of base names, failing on the
first column-level error. -/
def buildAll (raw : List (String × NPArray)) :
    List String → Except TableError (List (String × TensorColumn))
  | [] => .ok []
  | n :: ns =>
    match buildColumn raw n with
    | .error e => .error e
    | .ok c =>
      match buildAll raw ns with
      | .error e => .error e
      | .ok rest => .ok ((n, c) :: rest)

/-- Group the keys of a raw mapping into columns, in order of first
appearance of each base name. -/
def buildTableColumns (raw : List (String × NPArray)) :
    Except TableError (List (String × TensorColumn)) :=
  buildAll raw (dedupFirst (raw.map (fun p => baseName p.1)))

/-- Modelled from the spec: the majority backend type among the columns,
named by the cross-framework validation error. -/
def majorityFw (fws : List Framework) : Framework :=
  match fws with
  | [] => .numpy
  | f :: _ =>
    fws.foldl (fun best f' => if fws.count f' > fws.count best then f' else best) f

/-- Modelled from the spec: cross-column backend validation — all columns
must report the same array type; on mismatch, a CrossFramework error
naming the offending column and the majority type. -/
def validateTypes (cols : List (String × TensorColumn)) : Option TableError :=
  match cols.find? (fun p =>
      decide (p.2.arrayType ≠ majorityFw (cols.map (fun q => q.2.arrayType)))) with
  | some p => some (.crossFramework p.1 (majorityFw (cols.map (fun q => q.2.arrayType))))
  | none => none

/-- Modelled from the spec: cross-column device validation — all columns
must be on the same device; on mismatch, a CrossDevice error naming the
offending column and the two devices observed. -/
def validateDevices (cols : List (String × TensorColumn)) : Option TableError :=
  match cols with
  | [] => none
  | c0 :: _ =>
    match cols.find? (fun p => decide (p.2.device ≠ c0.2.device)) with
    | some p => some (.crossDevice p.1 c0.2.device p.2.device)
    | none => none

/-- Modelled from the spec: `TensorTable` construction from a raw mapping
(`from_mapping`): group keys into columns, then run the eager
cross-framework and cross-device validation. -/
def from_mapping (raw : List (String × NPArray)) : Except TableError TensorTable :=
  match buildTableColumns raw with
  | .error e => .error e
  | .ok cols =>
    match validateTypes cols with
    | some e => .error e
    | none =>
      match validateDevices cols with
      | some e => .error e
      | none => .ok ⟨cols⟩

/-- Re-expand one column into raw-mapping entries: a ragged column into
its `__values`/`__offsets` pair, a fixed column into a bare entry. -/
def expandCol (n : String) (c : TensorColumn) : List (String × NPArray) :=
  match c.offsets with
  | some off => [(n ++ vSuf, c.values), (n ++ oSuf, off)]
  | none => [(n, c.values)]

/-- Re-expand a list of columns into raw-mapping entries. -/
def expandAll : List (String × TensorColumn) → List (String × NPArray)
  | [] => []
  | p :: rest => expandCol p.1 p.2 ++ expandAll rest

/-- Modelled from the spec: `to_dict`, the inverse of `from_mapping`. -/
def TensorTable.to_dict (t : TensorTable) : List (String × NPArray) :=
  expandAll t.cols

/-- Modelled from the spec: the per-column payload of a columnar
dataframe — a column of scalar rows or a column of list-valued rows. -/
inductive DFColData where
  | scalars (xs : List Rat)
  | lists (xss : List (List Rat))
deriving DecidableEq

/-- Modelled from the spec: one dataframe column with its element dtype. -/
structure DFColumn where
  dtype : DType
  data : DFColData
deriving DecidableEq

/-- Modelled from the spec: a columnar dataframe — an ordered mapping of
column name to column, resident on one device. -/
structure DataFrame where
  device : Device
  cols : List (String × DFColumn)
deriving DecidableEq

/-- Cumulative row-length offsets of a list column, starting from
`start`: one entry per row boundary, hence one more entry than rows. -/
def offsetsFrom (start : Nat) : List (List Rat) → List Nat
  | [] => [start]
  | xs :: rest => start :: offsetsFrom (start + xs.length) rest

/-- Row-major flattening of a list column. -/
def flatAll : List (List Rat) → List Rat
  | [] => []
  | xs :: rest => xs ++ flatAll rest

/-- Expand a flat values array back into per-row lists using consecutive
offset pairs: row `i` is `values[offsets[i] : offsets[i+1]]`. -/
def sliceRows (vals : List Rat) : List Nat → List (List Rat)
  | o1 :: o2 :: rest => ((vals.drop o1).take (o2 - o1)) :: sliceRows vals (o2 :: rest)
  | _ => []

/-- The integer value of an offsets element. -/
def natOfRat (q : Rat) : Nat := q.num.toNat

/-- The rational encoding of an integer offsets element. -/
def ratOfNat (n : Nat) : Rat := n

/-- Modelled from the spec: `from_df` on one dataframe column — list rows
become a ragged column (flattened values plus int32 cumulative-length
offsets), scalar rows a fixed column with no offsets. -/
def colFromDf (fw : Framework) (dev : Device) (c : DFColumn) : TensorColumn :=
  match c.data with
  | .scalars xs => ⟨⟨fw, dev, c.dtype, xs⟩, none⟩
  | .lists xss =>
    ⟨⟨fw, dev, c.dtype, flatAll xss⟩,
     some ⟨fw, dev, .int32, (offsetsFrom 0 xss).map ratOfNat⟩⟩

/-- Modelled from the spec: `TensorTable.from_df` with no schema — one
table column per dataframe column, backend chosen by the dataframe's
device (host arrays for host dataframes, device arrays otherwise). -/
def TensorTable.from_df (df : DataFrame) : TensorTable :=
  ⟨df.cols.map (fun p =>
    (p.1, colFromDf (if df.device = .CPU then .numpy else .cupy) df.device p.2))⟩

/-- The device of a table, read from its first column. -/
def tableDevice (t : TensorTable) : Option Device :=
  t.cols.head?.map (fun p => p.2.device)

/-- Modelled from the spec: `to_df` on one column — a ragged column is
expanded back into per-row lists using its offsets, a fixed column back
into scalar rows. -/
def dfColFromCol (c : TensorColumn) : DFColumn :=
  match c.offsets with
  | some off =>
    ⟨c.values.dtype, .lists (sliceRows c.values.data (off.data.map natOfRat))⟩
  | none => ⟨c.values.dtype, .scalars c.values.data⟩

/-- Modelled from the spec: `TensorTable.to_df`, the inverse of
`from_df`, preserving column order and scalar vs list shape. -/
def TensorTable.to_df (t : TensorTable) : DataFrame :=
  ⟨(tableDevice t).getD .CPU, t.cols.map (fun p => (p.1, dfColFromCol p.2))⟩

/-- The error-kind taxonomy of the spec (section 7). -/
inductive ErrKind where
  | validation
  | invalidArgument
  | keyNotFound
  | unsupportedOperation
  | notImplemented
deriving DecidableEq

/-- An error with its spec-taxonomy kind and message. -/
structure CoreError where
  kind : ErrKind
  msg : String
deriving DecidableEq

/-- A Python object passed as the `tensor_type` argument: either a type
object identified by name, or a plain non-type value such as a string. -/
inductive PyTypeArg where
  | typeArg (name : String)
  | strArg (s : String)
deriving DecidableEq

/-- Modelled from the spec: the registered Column subtypes, one per
backend, keyed by type name. -/
def registeredColumnType? (name : String) : Option Framework :=
  if name = "NumpyColumn" then some .numpy
  else if name = "CupyColumn" then some .cupy
  else if name = "TensorflowColumn" then some .tensorflow
  else if name = "TorchColumn" then some .torch
  else none

/-- Modelled from the spec: `supported_devices()` of each Column variant —
host arrays are host-only, device arrays accelerator-only, framework
tensors support both. -/
def supportedDevices (fw : Framework) : List Device :=
  match fw with
  | .numpy => [.CPU]
  | .cupy => [.GPU]
  | .tensorflow => [.CPU, .GPU]
  | .torch => [.CPU, .GPU]

/-- The backend Column subtype named by a `tensor_type` argument, if the
argument is a type registered as a Column subtype. -/
def argColumnType? (arg : PyTypeArg) : Option Framework :=
  match arg with
  | .typeArg name => registeredColumnType? name
  | .strArg _ => none

/-- Modelled from the spec: convert one column to a target backend — the
values and offsets buffers are routed through the buffer exchange
protocol unchanged, reconstructing a same-shape column of the target
type; conversion preserves raggedness. -/
def convertColumnTo (fw : Framework) (c : TensorColumn) : TensorColumn :=
  ⟨{ c.values with framework := fw },
   c.offsets.map (fun o => { o with framework := fw })⟩

/-- Modelled from the spec: `as_tensor_type` — reject a non-type argument
and an argument that is not a registered Column subtype (both
InvalidArgument per the spec taxonomy, with the messages the tests
assert); reject a target whose supported devices exclude the table's
device (UnsupportedOperation); otherwise convert every column. -/
def as_tensor_type (t : TensorTable) (arg : PyTypeArg) :
    Except CoreError TensorTable :=
  match arg with
  | .strArg _ =>
    .error ⟨.invalidArgument, "The tensor_type argument must be a type"⟩
  | .typeArg name =>
    match registeredColumnType? name with
    | none => .error ⟨.invalidArgument, "Unsupported tensor type: " ++ name⟩
    | some fw =>
      match tableDevice t with
      | some d =>
        if d ∈ supportedDevices fw then
          .ok ⟨t.cols.map (fun p => (p.1, convertColumnTo fw p.2))⟩
        else
          .error ⟨.unsupportedOperation,
            "Unsupported device for tensor type: " ++ name⟩
      | none => .ok ⟨t.cols.map (fun p => (p.1, convertColumnTo fw p.2))⟩

/-- A Python runtime type: its name and the root module that owns it. -/
structure PyTypeRef where
  typeName : String
  moduleRoot : String
deriving DecidableEq

/-- A Python value carrying its runtime type and an opaque payload. -/
structure PyValue where
  type : PyTypeRef
  payload : String
deriving DecidableEq

/-- Python-level errors raised by the embedded code. -/
inductive PyError where
  | valueError (msg : String)
  | runtimeError (msg : String)
  | keyError (key : String)
  | notImplementedError (msg : String)
  | typeError (msg : String)
deriving DecidableEq

/-- A dispatch handler for one runtime type. -/
def Handler : Type := PyValue → String

/-- Modelled from the spec: the state of a lazy single-dispatch registry —
immediate registrations keyed by runtime type, an optional base/None
fallback, deferred registrations keyed by dependency module name (an
initializer is modelled by the registrations it performs), and the
append-only record of dependencies already triggered. -/
structure LazyRegistry where
  dispatchName : String
  handlers : List (PyTypeRef × Handler)
  fallback : Option Handler
  lazyFns : List (String × List (PyTypeRef × Handler))
  triggered : List String

/-- First-match lookup of a lazy entry by dependency module name. -/
def lookupLazy (dep : String) :
    List (String × List (PyTypeRef × Handler)) → Option (List (PyTypeRef × Handler))
  | [] => none
  | (d, regs) :: rest => if d = dep then some regs else lookupLazy dep rest

/-- First-match lookup of an immediate handler by exact runtime type. -/
def findHandler (t : PyTypeRef) :
    List (PyTypeRef × Handler) → Option Handler
  | [] => none
  | (t', h) :: rest => if t' = t then some h else findHandler t rest

/-- The outcome of one dispatch call: its result, the registry state
afterwards, and the lazy initializers that ran during the call. -/
structure DispatchOutcome where
  result : Except PyError String
  state : LazyRegistry
  ranInits : List String

/-- Modelled from the spec: `dispatch(value)` — first activate the
(at-most-one-shot) lazy registration owned by the value's root module if
it has not been triggered yet, then select the exact-type handler, then
the base/None fallback, and otherwise fail with a NotImplemented error
naming the unregistered type. -/
def dispatch (r : LazyRegistry) (v : PyValue) : DispatchOutcome :=
  let step :=
    match lookupLazy v.type.moduleRoot r.lazyFns with
    | some regs =>
      if v.type.moduleRoot ∈ r.triggered then (r, ([] : List String))
      else ({ r with
                handlers := r.handlers ++ regs
                triggered := v.type.moduleRoot :: r.triggered },
            [v.type.moduleRoot])
    | none => (r, [])
  match findHandler v.type step.1.handlers with
  | some h => ⟨.ok (h v), step.1, step.2⟩
  | none =>
    match step.1.fallback with
    | some h => ⟨.ok (h v), step.1, step.2⟩
    | none =>
      ⟨.error (.notImplementedError
        (r.dispatchName ++ " doesn't have a registered implementation for type "
          ++ v.type.typeName)),
       step.1, step.2⟩

/-- Run a sequence of dispatch calls, threading the registry state and
collecting every lazy initializer run along the way. -/
def dispatchSeq (r : LazyRegistry) : List PyValue → LazyRegistry × List String
  | [] => (r, [])
  | v :: vs =>
    let o := dispatch r v
    let rest := dispatchSeq o.state vs
    (rest.1, o.ranInits ++ rest.2)

/-- A TensorFlow tensor as the embedded constructor sees it: the device
placement string reported by `tensor.device`, plus its element data. -/
structure TfTensor where
  deviceStr : String
  data : List Rat
deriving DecidableEq

/-- Whether the string `pat` occurs as a contiguous substring of `s`
(the Python `in` operator on strings). -/
def strHasSub (s pat : String) : Bool :=
  decide (List.IsInfix pat.data s.data)

/-- Embeds `TensorflowColumn._tf_device`: `Device.GPU` if the substring
"GPU" occurs in the tensor's device string, else `Device.CPU`. -/
def tfDevice (t : TfTensor) : Device :=
  if strHasSub t.deviceStr "GPU" then .GPU else .CPU

/-- The `str()` rendering of a `Device` enum member, as interpolated into
the constructor's error message. -/
def deviceRepr : Device → String
  | .CPU => "Device.CPU"
  | .GPU => "Device.GPU"

/-- The column object produced by a successful `TensorflowColumn`
construction; the base class stores the values, offsets and the device
passed down by the subclass (the base `TensorColumn.__init__` is
modelled from the spec: a column records its values, optional offsets and
device). -/
structure TfColumn where
  values : TfTensor
  offsets : Option TfTensor
  device : Device
deriving DecidableEq

/-- Embeds `TensorflowColumn.__init__`: detect the values device, and if
offsets are present and their detected device differs, raise a
ValueError naming both devices; otherwise store the column with the
device detected from the values tensor. -/
def tensorflowColumnInit (values : TfTensor) (offsets : Option TfTensor) :
    Except PyError TfColumn :=
  match offsets with
  | some o =>
    if tfDevice values ≠ tfDevice o then
      .error (.valueError
        ("Values and offsets were detected on different devices: values ("
          ++ deviceRepr (tfDevice values) ++ ") and offsets ("
          ++ deviceRepr (tfDevice o) ++ ")."))
    else .ok ⟨values, offsets, tfDevice values⟩
  | none => .ok ⟨values, offsets, tfDevice values⟩

/-- The behaviour of a Python user function handed to `UDF`: its declared
parameter count as reported by `inspect.signature`, and its result when
called with one argument (the column) or two (the column and the whole
transformable). -/
structure PyFuncModel where
  paramCount : Nat
  app1 : NPArray → NPArray
  app2 : NPArray → List (String × NPArray) → NPArray

/-- The state of a constructed `UDF` operator relevant to `transform`. -/
structure UDFOp where
  f : PyFuncModel
  dependency : Option (List String)

/-- Embeds `UDF.__init__`: reject a missing function, then reject a
function whose parameter count is neither one nor two. -/
def udfInit (f : Option PyFuncModel) (dependency : Option (List String)) :
    Except PyError UDFOp :=
  match f with
  | none =>
    .error (.valueError "UDF requires a function to be supplied, f can not be `None`")
  | some fn =>
    if fn.paramCount = 1 ∨ fn.paramCount = 2 then .ok ⟨fn, dependency⟩
    else .error (.valueError "UDF must accept either one or two parameters")

/-- Embeds the body of `UDF.transform` for one selected column name:
look the column up in the transformable, then call the user function
with the whole transformable as a second argument exactly when the
declared parameter count is two, with the column alone when it is one,
and raise the defensive RuntimeError otherwise. -/
def udfApplyOne (op : UDFOp) (transformable : List (String × NPArray))
    (col : String) : Except PyError (String × NPArray) :=
  match assocLookup col transformable with
  | none => .error (.keyError col)
  | some v =>
    if op.f.paramCount = 2 then .ok (col, op.f.app2 v transformable)
    else if op.f.paramCount = 1 then .ok (col, op.f.app1 v)
    else .error (.runtimeError "unhandled UDF param count")

/-- Embeds `UDF.transform`: apply the user function to every column the
selector names, building the output mapping. -/
def udfTransform (op : UDFOp) (selector : List String)
    (transformable : List (String × NPArray)) :
    Except PyError (List (String × NPArray)) :=
  match selector with
  | [] => .ok []
  | col :: rest =>
    match udfApplyOne op transformable col with
    | .error e => .error e
    | .ok entry =>
      match udfTransform op rest transformable with
      | .error e => .error e
      | .ok tail => .ok (entry :: tail)

/-- A host numpy int64 array with the given elements. -/
def npArr (xs : List Rat) : NPArray := ⟨.numpy, .CPU, .int64, xs⟩

/-- A host numpy int32 array with the given elements. -/
def npArr32 (xs : List Rat) : NPArray := ⟨.numpy, .CPU, .int32, xs⟩

/-- A host tensorflow int64 array with the given elements. -/
def tfArr (xs : List Rat) : NPArray := ⟨.tensorflow, .CPU, .int64, xs⟩

/-- The raw mapping of the `to_dict` round-trip test: one ragged column
given as a `__values`/`__offsets` pair plus one fixed column. -/
def rawExample : List (String × NPArray) :=
  [("a__values", npArr [1, 2, 3]), ("a__offsets", npArr32 [0, 1, 3]),
   ("b", npArr [9, 8])]

/-- The table that `from_mapping` builds from `rawExample`. -/
def tableExample : TensorTable :=
  ⟨[("a", ⟨npArr [1, 2, 3], some (npArr32 [0, 1, 3])⟩),
    ("b", ⟨npArr [9, 8], none⟩)]⟩

/-- A raw mapping mixing numpy and tensorflow backed columns, as in the
cross-framework validation test. -/
def mixedRaw : List (String × NPArray) :=
  [("a__values", npArr [1, 2, 3]), ("a__offsets", npArr32 [0, 1, 3]),
   ("b", tfArr [4, 5, 6])]

/-- A raw mapping with same-backend columns on two different devices, as
in the cross-device validation test. -/
def deviceRaw : List (String × NPArray) :=
  [("a", ⟨.tensorflow, .CPU, .int64, [1, 2, 3]⟩),
   ("b", ⟨.tensorflow, .GPU, .int64, [1, 2, 3]⟩)]

/-- The dataframe of the worked example: a ragged list column `a` and a
scalar column `b`. -/
def dfExample : DataFrame :=
  ⟨.CPU, [("a", ⟨.int64, .lists [[1, 2, 3], [4, 5, 6, 7]]⟩),
          ("b", ⟨.int64, .scalars [1, 2]⟩)]⟩

/-- A one-column host table used to exercise `as_tensor_type`. -/
def sampleTableNp : TensorTable := ⟨[("a", ⟨npArr [1, 2, 3], none⟩)]⟩

/-- The runtime type of Python `int`. -/
def intType : PyTypeRef := ⟨"int", "builtins"⟩

/-- The runtime type of Python `float`. -/
def floatType : PyTypeRef := ⟨"float", "builtins"⟩

/-- The runtime type of Python `str`. -/
def strType : PyTypeRef := ⟨"str", "builtins"⟩

/-- The runtime type of a TensorFlow eager tensor. -/
def tfTensorType : PyTypeRef := ⟨"Tensor", "tensorflow"⟩

/-- The handlers that the lazy tensorflow initializer of the dispatch
test registers when triggered. -/
def tfLazyRegs : List (PyTypeRef × Handler) :=
  [(tfTensorType, fun _ => "tensor")]

/-- The dispatch registry of the lazy-dispatch test: immediate handlers
for `int` and `float`, a lazy handler for the tensorflow tensor type,
nothing triggered yet. -/
def sampleRegistry : LazyRegistry :=
  ⟨"return_type_name",
   [(intType, fun _ => "int"), (floatType, fun _ => "float")],
   none,
   [("tensorflow", tfLazyRegs)],
   []⟩

/-- A TensorFlow tensor placed on the host. -/
def tfCpuTensor : TfTensor :=
  ⟨"/job:localhost/replica:0/task:0/device:CPU:0", [1, 2, 3]⟩

/-- A TensorFlow tensor placed on the first accelerator. -/
def tfGpuTensor : TfTensor :=
  ⟨"/job:localhost/replica:0/task:0/device:GPU:0", [0, 1, 3]⟩

/-- A one-parameter user function for the UDF tests. -/
def sampleFunc1 : PyFuncModel := ⟨1, fun v => v, fun v _ => v⟩

/-- A two-parameter user function for the UDF tests. -/
def sampleFunc2 : PyFuncModel := ⟨2, fun v => v, fun v _ => v⟩

/-- A three-parameter user function, rejected by UDF construction. -/
def sampleFunc3 : PyFuncModel := ⟨3, fun v => v, fun v _ => v⟩

/-- Unfolding characterization of `strEnds`. -/
theorem strEnds_iff {s p : String} :
    strEnds s p = true ↔
      (p.data.length ≤ s.data.length ∧
        s.data.drop (s.data.length - p.data.length) = p.data) := by
  simp [strEnds]

/-- Appending `p` always produces a string ending with `p`. -/
theorem strEnds_append (n p : String) : strEnds (n ++ p) p = true := by
  rw [strEnds_iff, String.data_append, List.length_append, Nat.add_sub_cancel]
  exact ⟨Nat.le_add_left _ _, List.drop_left n.data p.data⟩

/-- Stripping the ending just appended recovers the original string. -/
theorem stripSfx_append (n p : String) : stripSfx (n ++ p) p = n := by
  unfold stripSfx
  rw [String.data_append, List.length_append, Nat.add_sub_cancel, List.take_left n.data p.data]

/-- A string ending with `p` decomposes as its stripped part plus `p`. -/
theorem strEnds_decomp {s p : String} (h : strEnds s p = true) :
    stripSfx s p ++ p = s := by
  rw [strEnds_iff] at h
  apply String.ext
  rw [String.data_append]
  show (s.data.take (s.data.length - p.data.length)) ++ p.data = s.data
  nth_rewrite 2 [← h.2]
  exact List.take_append_drop _ _

/-- No string ends with both `__values` and `__offsets`. -/
theorem strEnds_vo_false {s : String} (hv : strEnds s vSuf = true)
    (ho : strEnds s oSuf = true) : False := by
  rw [strEnds_iff] at hv ho
  have hvl : vSuf.data.length = 8 := by decide
  have hol : oSuf.data.length = 9 := by decide
  rw [hvl] at hv
  rw [hol] at ho
  have hkey : vSuf.data = oSuf.data.drop 1 := by
    rw [← hv.2, ← ho.2, List.drop_drop]
    have : s.data.length - 9 + 1 = s.data.length - 8 := by omega
    rw [this]
  have : ¬(vSuf.data = oSuf.data.drop 1) := by decide
  exact this hkey

/-- A string ending with `__offsets` does not end with `__values`. -/
theorem strEnds_o_not_v (n : String) : strEnds (n ++ oSuf) vSuf = false := by
  cases h : strEnds (n ++ oSuf) vSuf with
  | false => rfl
  | true => exact absurd (strEnds_vo_false h (strEnds_append n oSuf)) (fun f => f)

/-- A string ending with `__values` does not end with `__offsets`. -/
theorem strEnds_v_not_o (n : String) : strEnds (n ++ vSuf) oSuf = false := by
  cases h : strEnds (n ++ vSuf) oSuf with
  | false => rfl
  | true => exact absurd (strEnds_vo_false (strEnds_append n vSuf) h) (fun f => f)

/-- Appending a fixed ending is injective. -/
theorem append_sfx_inj {a b p : String} (h : a ++ p = b ++ p) : a = b := by
  have hd : a.data ++ p.data = b.data ++ p.data := by
    rw [← String.data_append, ← String.data_append, h]
  exact String.ext (List.append_cancel_right hd)

/-- A `__values`-suffixed key never equals an `__offsets`-suffixed key. -/
theorem v_append_ne_o_append (a b : String) : a ++ vSuf ≠ b ++ oSuf := by
  intro h
  exact strEnds_vo_false (strEnds_append a vSuf) (h ▸ strEnds_append b oSuf)

/-- A string free of both endings differs from every `__values` key. -/
theorem sufFree_ne_v {n m : String} (h : sufFreeB n = true) : n ≠ m ++ vSuf := by
  intro e
  rw [e] at h
  simp [sufFreeB, strEnds_append] at h

/-- A string free of both endings differs from every `__offsets` key. -/
theorem sufFree_ne_o {n m : String} (h : sufFreeB n = true) : n ≠ m ++ oSuf := by
  intro e
  rw [e] at h
  simp [sufFreeB, strEnds_append] at h

/-- The base name of an ending-free key is the key itself. -/
theorem baseName_of_sufFree {k : String} (h : sufFreeB k = true) : baseName k = k := by
  unfold sufFreeB at h
  rw [Bool.and_eq_true, Bool.not_eq_true', Bool.not_eq_true'] at h
  unfold baseName
  rw [h.1, h.2]
  simp

/-- The base name of a `__values` key is the name in front of the ending. -/
theorem baseName_v (n : String) : baseName (n ++ vSuf) = n := by
  unfold baseName
  rw [strEnds_append]
  simp [stripSfx_append]

/-- The base name of an `__offsets` key is the name in front of the ending. -/
theorem baseName_o (n : String) : baseName (n ++ oSuf) = n := by
  unfold baseName
  rw [strEnds_o_not_v, strEnds_append]
  simp [stripSfx_append]

/-- Every key is ending-free, a `__values` key over its base name, or an
`__offsets` key over its base name. -/
theorem baseName_cases (k : String) :
    (sufFreeB k = true ∧ baseName k = k) ∨
    k = baseName k ++ vSuf ∨ k = baseName k ++ oSuf := by
  cases hv : strEnds k vSuf with
  | true =>
    refine Or.inr (Or.inl ?_)
    have hb : baseName k = stripSfx k vSuf := by unfold baseName; rw [hv]; simp
    rw [hb]
    exact (strEnds_decomp hv).symm
  | false =>
    cases ho : strEnds k oSuf with
    | true =>
      refine Or.inr (Or.inr ?_)
      have hb : baseName k = stripSfx k oSuf := by unfold baseName; rw [hv, ho]; simp
      rw [hb]
      exact (strEnds_decomp ho).symm
    | false =>
      refine Or.inl ⟨?_, ?_⟩
      · simp [sufFreeB, hv, ho]
      · unfold baseName; rw [hv, ho]; simp


/-- Unfolding of `assocLookup` on a cons cell. -/
theorem assocLookup_cons {α : Type} (k k' : String) (v : α)
    (rest : List (String × α)) :
    assocLookup k ((k', v) :: rest) =
      if k' = k then some v else assocLookup k rest := rfl

/-- A successful lookup returns an entry of the list. -/
theorem assocLookup_some_mem {α : Type} {k : String} {v : α}
    {l : List (String × α)} (h : assocLookup k l = some v) : (k, v) ∈ l := by
  induction l with
  | nil => simp [assocLookup] at h
  | cons p rest ih =>
    obtain ⟨k', v'⟩ := p
    rw [assocLookup_cons] at h
    by_cases he : k' = k
    · rw [if_pos he] at h
      subst he
      injection h with h
      subst h
      exact List.mem_cons_self _ _
    · rw [if_neg he] at h
      exact List.mem_cons_of_mem _ (ih h)

/-- Lookup over an append prefers the first list when it has the key. -/
theorem assocLookup_append_some {α : Type} {k : String} {v : α}
    {l1 l2 : List (String × α)} (h : assocLookup k l1 = some v) :
    assocLookup k (l1 ++ l2) = some v := by
  induction l1 with
  | nil => simp [assocLookup] at h
  | cons p rest ih =>
    obtain ⟨k', v'⟩ := p
    rw [assocLookup_cons] at h
    rw [List.cons_append, assocLookup_cons]
    by_cases he : k' = k
    · rw [if_pos he] at h ⊢; exact h
    · rw [if_neg he] at h ⊢; exact ih h

/-- Lookup over an append falls through to the second list when the
first lacks the key. -/
theorem assocLookup_append_none {α : Type} {k : String}
    {l1 l2 : List (String × α)} (h : assocLookup k l1 = none) :
    assocLookup k (l1 ++ l2) = assocLookup k l2 := by
  induction l1 with
  | nil => simp
  | cons p rest ih =>
    obtain ⟨k', v'⟩ := p
    rw [assocLookup_cons] at h
    rw [List.cons_append, assocLookup_cons]
    by_cases he : k' = k
    · rw [if_pos he] at h; cases h
    · rw [if_neg he] at h ⊢; exact ih h

/-- Unfolding of `elemStr` on a cons cell. -/
theorem elemStr_cons (a x : String) (l : List String) :
    elemStr a (x :: l) = if x = a then true else elemStr a l := rfl

/-- `elemStr` decides list membership of strings. -/
theorem elemStr_iff {a : String} {l : List String} :
    elemStr a l = true ↔ a ∈ l := by
  induction l with
  | nil => simp [elemStr]
  | cons x xs ih =>
    rw [elemStr_cons]
    by_cases he : x = a
    · subst he; simp
    · rw [if_neg he, ih]
      simp only [List.mem_cons]
      constructor
      · exact Or.inr
      · rintro (h | h)
        · exact absurd h.symm he
        · exact h

/-- Membership in the deduplication worker: an element appears iff it is
in the input and not among the already-seen strings. -/
theorem mem_dedupGo {l : List String} {seen : List String} {a : String} :
    a ∈ dedupGo l seen ↔ (a ∈ l ∧ elemStr a seen = false) := by
  induction l generalizing seen with
  | nil => simp [dedupGo]
  | cons x xs ih =>
    unfold dedupGo
    by_cases hx : elemStr x seen = true
    · rw [if_pos hx, ih]
      constructor
      · rintro ⟨h1, h2⟩
        exact ⟨List.mem_cons_of_mem _ h1, h2⟩
      · rintro ⟨h1, h2⟩
        rcases List.mem_cons.mp h1 with he | hm
        · subst he; rw [h2] at hx; cases hx
        · exact ⟨hm, h2⟩
    · rw [if_neg hx]
      rw [Bool.not_eq_true] at hx
      rw [List.mem_cons, ih, List.mem_cons]
      constructor
      · rintro (he | ⟨hm, hs⟩)
        · subst he; exact ⟨Or.inl rfl, hx⟩
        · rw [elemStr_cons] at hs
          by_cases hax : x = a
          · rw [if_pos hax] at hs; cases hs
          · rw [if_neg hax] at hs
            exact ⟨Or.inr hm, hs⟩
      · rintro ⟨he | hm, hs⟩
        · exact Or.inl he
        · by_cases hax : x = a
          · exact Or.inl hax.symm
          · refine Or.inr ⟨hm, ?_⟩
            rw [elemStr_cons, if_neg hax]
            exact hs

/-- Deduplication preserves membership. -/
theorem mem_dedupFirst {l : List String} {a : String} :
    a ∈ dedupFirst l ↔ a ∈ l := by
  unfold dedupFirst
  rw [mem_dedupGo]
  simp [elemStr]

/-- Absent keys are exactly the failed lookups. -/
theorem hasK_false_iff {α : Type} {k : String} {l : List (String × α)} :
    hasK k l = false ↔ assocLookup k l = none := by
  unfold hasK
  cases assocLookup k l <;> simp

/-- Present keys are exactly the successful lookups. -/
theorem hasK_true_iff {α : Type} {k : String} {l : List (String × α)} :
    hasK k l = true ↔ ∃ v, assocLookup k l = some v := by
  unfold hasK
  cases assocLookup k l <;> simp

/-- Every entry of a well-formed mapping satisfies the key condition. -/
theorem wf_goodKey {raw : List (String × NPArray)}
    (wf : wellFormedMapping raw = true) {p : String × NPArray} (hp : p ∈ raw) :
    goodKeyB raw p.1 = true := by
  unfold wellFormedMapping at wf
  rw [Bool.and_eq_true] at wf
  exact List.all_eq_true.mp wf.2 p hp

/-- What the key condition says about a `__values` key: its offsets twin
exists, its base name is ending-free, and its base name is not a key. -/
theorem goodKey_v {α : Type} {raw : List (String × α)} {n : String}
    (h : goodKeyB raw (n ++ vSuf) = true) :
    hasK (n ++ oSuf) raw = true ∧ sufFreeB n = true ∧ hasK n raw = false := by
  unfold goodKeyB at h
  simp only [strEnds_append, stripSfx_append, if_true] at h
  rw [Bool.and_eq_true, Bool.and_eq_true, Bool.not_eq_true'] at h
  exact ⟨h.1.1, h.1.2, h.2⟩

/-- What the key condition says about an `__offsets` key: its values twin
exists, its base name is ending-free, and its base name is not a key. -/
theorem goodKey_o {α : Type} {raw : List (String × α)} {n : String}
    (h : goodKeyB raw (n ++ oSuf) = true) :
    hasK (n ++ vSuf) raw = true ∧ sufFreeB n = true ∧ hasK n raw = false := by
  unfold goodKeyB at h
  simp only [strEnds_o_not_v, strEnds_append, stripSfx_append,
    Bool.false_eq_true, if_false, if_true] at h
  rw [Bool.and_eq_true, Bool.and_eq_true, Bool.not_eq_true'] at h
  exact ⟨h.1.1, h.1.2, h.2⟩

/-- What the key condition says about a bare key: neither reserved
companion key exists. -/
theorem goodKey_bare {α : Type} {raw : List (String × α)} {k : String}
    (hf : sufFreeB k = true) (h : goodKeyB raw k = true) :
    hasK (k ++ vSuf) raw = false ∧ hasK (k ++ oSuf) raw = false := by
  unfold sufFreeB at hf
  rw [Bool.and_eq_true, Bool.not_eq_true', Bool.not_eq_true'] at hf
  unfold goodKeyB at h
  rw [hf.1, hf.2] at h
  simp only [Bool.false_eq_true, if_false] at h
  rw [Bool.and_eq_true, Bool.not_eq_true', Bool.not_eq_true'] at h
  exact h

/-- Every grouped base name of a well-formed mapping is ending-free. -/
theorem names_sufFree {raw : List (String × NPArray)}
    (wf : wellFormedMapping raw = true) {n : String}
    (h : n ∈ dedupFirst (raw.map (fun p => baseName p.1))) :
    sufFreeB n = true := by
  rw [mem_dedupFirst] at h
  obtain ⟨p, hp, hbn⟩ := List.mem_map.mp h
  have hg := wf_goodKey wf hp
  rcases baseName_cases p.1 with ⟨hf, hb⟩ | h2 | h2
  · rw [← hbn, hb]
    exact hf
  · rw [h2] at hg
    have hres := (goodKey_v hg).2.1
    rw [hbn] at hres
    exact hres
  · rw [h2] at hg
    have hres := (goodKey_o hg).2.1
    rw [hbn] at hres
    exact hres

/-- Looking a key up in the expansion of one well-formed column block
gives exactly the raw mapping's value for keys whose base name is the
column's name, and nothing otherwise. -/
theorem expandCol_lookup {raw : List (String × NPArray)} {n : String}
    {c : TensorColumn} (wf : wellFormedMapping raw = true)
    (hn : sufFreeB n = true) (hb : buildColumn raw n = .ok c) (k : String) :
    assocLookup k (expandCol n c) =
      if baseName k = n then assocLookup k raw else none := by
  unfold buildColumn at hb
  split at hb
  · -- values key present
    rename_i v hv
    split at hb
    · -- offsets key present: ragged column
      rename_i o ho
      split at hb
      · injection hb with hb
        subst hb
        have hgv := goodKey_v (wf_goodKey wf (assocLookup_some_mem hv))
        have hln : assocLookup n raw = none := hasK_false_iff.mp hgv.2.2
        show assocLookup k [(n ++ vSuf, v), (n ++ oSuf, o)] = _
        by_cases hk : baseName k = n
        · rw [if_pos hk]
          rcases baseName_cases k with ⟨hkf, hkb⟩ | hk2 | hk2
          · have hkn : k = n := hkb.symm.trans hk
            subst hkn
            rw [assocLookup_cons, if_neg (fun e => sufFree_ne_v hn e.symm),
              assocLookup_cons, if_neg (fun e => sufFree_ne_o hn e.symm)]
            exact hln.symm
          · have hkn : k = n ++ vSuf := by rw [hk2, hk]
            subst hkn
            rw [assocLookup_cons, if_pos rfl]
            exact hv.symm
          · have hkn : k = n ++ oSuf := by rw [hk2, hk]
            subst hkn
            rw [assocLookup_cons, if_neg (v_append_ne_o_append n n),
              assocLookup_cons, if_pos rfl]
            exact ho.symm
        · rw [if_neg hk]
          have e1 : ¬(n ++ vSuf = k) := fun e => hk (by rw [← e, baseName_v])
          have e2 : ¬(n ++ oSuf = k) := fun e => hk (by rw [← e, baseName_o])
          rw [assocLookup_cons, if_neg e1, assocLookup_cons, if_neg e2]
          rfl
      · cases hb
    · -- offsets key absent although the values key exists: impossible in
      -- a well-formed mapping
      rename_i ho
      have hgv := goodKey_v (wf_goodKey wf (assocLookup_some_mem hv))
      obtain ⟨o, ho2⟩ := hasK_true_iff.mp hgv.1
      rw [ho] at ho2
      cases ho2
  · -- values key absent: fixed column from the bare key
    rename_i hv
    split at hb
    · rename_i v hw
      injection hb with hb
      subst hb
      have hg := wf_goodKey wf (assocLookup_some_mem hw)
      have hKo := (goodKey_bare hn hg).2
      have hlo : assocLookup (n ++ oSuf) raw = none := hasK_false_iff.mp hKo
      show assocLookup k [(n, v)] = _
      by_cases hk : baseName k = n
      · rw [if_pos hk]
        rcases baseName_cases k with ⟨hkf, hkb⟩ | hk2 | hk2
        · have hkn : k = n := hkb.symm.trans hk
          subst hkn
          rw [assocLookup_cons, if_pos rfl]
          exact hw.symm
        · have hkn : k = n ++ vSuf := by rw [hk2, hk]
          subst hkn
          rw [assocLookup_cons, if_neg (sufFree_ne_v hn)]
          exact hv.symm
        · have hkn : k = n ++ oSuf := by rw [hk2, hk]
          subst hkn
          rw [assocLookup_cons, if_neg (sufFree_ne_o hn)]
          exact hlo.symm
      · rw [if_neg hk]
        have e1 : ¬(n = k) := fun e => hk (by rw [← e, baseName_of_sufFree hn])
        rw [assocLookup_cons, if_neg e1]
        rfl
    · cases hb

/-- Looking a key up in the expansion of all built columns gives the raw
mapping's value when the key's base name is among the grouped names, and
nothing otherwise. -/
theorem buildAll_lookup {raw : List (String × NPArray)}
    (wf : wellFormedMapping raw = true) :
    ∀ (ns : List String) (cols : List (String × TensorColumn)),
      (∀ n ∈ ns, sufFreeB n = true) →
      buildAll raw ns = .ok cols →
      ∀ k, assocLookup k (expandAll cols) =
        if baseName k ∈ ns then assocLookup k raw else none := by
  intro ns
  induction ns with
  | nil =>
    intro cols _ hb k
    unfold buildAll at hb
    injection hb with hb
    subst hb
    simp [expandAll, assocLookup]
  | cons n ns ih =>
    intro cols hsf hb k
    unfold buildAll at hb
    split at hb
    · cases hb
    · rename_i c hc
      split at hb
      · cases hb
      · rename_i rest hr
        injection hb with hb
        subst hb
        have hblock := expandCol_lookup wf (hsf n (List.mem_cons_self n ns)) hc k
        show assocLookup k (expandCol n c ++ expandAll rest) = _
        by_cases hbk : baseName k = n
        · rw [if_pos hbk] at hblock
          cases hr2 : assocLookup k raw with
          | some v =>
            rw [hr2] at hblock
            rw [assocLookup_append_some hblock]
            rw [if_pos (show baseName k ∈ n :: ns by
              rw [hbk]; exact List.mem_cons_self n ns)]
          | none =>
            rw [hr2] at hblock
            rw [assocLookup_append_none hblock,
              ih rest (fun m hm => hsf m (List.mem_cons_of_mem n hm)) hr k, hr2]
            simp
        · rw [if_neg hbk] at hblock
          rw [assocLookup_append_none hblock,
            ih rest (fun m hm => hsf m (List.mem_cons_of_mem n hm)) hr k]
          simp [List.mem_cons, hbk]

/-- A successful `from_mapping` decomposes into successful grouping and
passing both cross-column validations. -/
theorem from_mapping_ok_parts {raw : List (String × NPArray)} {t : TensorTable}
    (h : from_mapping raw = .ok t) :
    buildTableColumns raw = .ok t.cols ∧ validateTypes t.cols = none ∧
      validateDevices t.cols = none := by
  unfold from_mapping at h
  split at h
  · cases h
  · rename_i cols hbc
    split at h
    · cases h
    · rename_i hvt
      split at h
      · cases h
      · rename_i hvd
        injection h with h
        subst h
        exact ⟨hbc, hvt, hvd⟩

/-- C1: for every raw mapping accepted by table construction — keys are
bare column names or `name__values`/`name__offsets` pairs, and
`from_mapping` succeeds — `to_dict` of the constructed table is a mapping
extensionally equal to the input: every key looks up to the same array,
so the key sets coincide and each array is reproduced exactly. -/
theorem C1_to_dict_round_trip (raw : List (String × NPArray)) (t : TensorTable)
    (hwf : wellFormedMapping raw = true) (h : from_mapping raw = .ok t)
    (k : String) : assocLookup k t.to_dict = assocLookup k raw := by
  obtain ⟨hb, -, -⟩ := from_mapping_ok_parts h
  unfold buildTableColumns at hb
  have hm := buildAll_lookup hwf _ t.cols (fun n hn => names_sufFree hwf hn) hb k
  show assocLookup k (expandAll t.cols) = _
  rw [hm]
  by_cases hk : baseName k ∈ dedupFirst (raw.map (fun p => baseName p.1))
  · rw [if_pos hk]
  · rw [if_neg hk]
    cases hl : assocLookup k raw with
    | none => rfl
    | some v =>
      exfalso
      apply hk
      rw [mem_dedupFirst]
      exact List.mem_map.mpr ⟨(k, v), assocLookup_some_mem hl, rfl⟩

/-- Closed instance of C1 on the ragged-plus-fixed example mapping. -/
theorem C1_to_dict_round_trip_witness :
    wellFormedMapping rawExample = true ∧
    assocLookup "a__offsets" (TensorTable.to_dict tableExample) =
      assocLookup "a__offsets" rawExample :=
  ⟨by decide,
   C1_to_dict_round_trip rawExample tableExample (by decide) (by rfl)
     "a__offsets"⟩


/-- The cumulative-offset list always starts with its start value. -/
theorem offsetsFrom_cons_shape (s : Nat) (xss : List (List Rat)) :
    ∃ t, offsetsFrom s xss = s :: t := by
  cases xss with
  | nil => exact ⟨[], rfl⟩
  | cons xs rest => exact ⟨offsetsFrom (s + xs.length) rest, rfl⟩

/-- Slicing a flattened list column by its cumulative offsets recovers
the original rows, for any flat data sitting in front of the rows. -/
theorem sliceRows_flatAll (xss : List (List Rat)) :
    ∀ pre : List Rat,
      sliceRows (pre ++ flatAll xss) (offsetsFrom pre.length xss) = xss := by
  induction xss with
  | nil => intro pre; rfl
  | cons xs rest ih =>
    intro pre
    obtain ⟨t, ht⟩ := offsetsFrom_cons_shape (pre.length + xs.length) rest
    show sliceRows (pre ++ (xs ++ flatAll rest))
      (pre.length :: offsetsFrom (pre.length + xs.length) rest) = xs :: rest
    rw [ht]
    show ((pre ++ (xs ++ flatAll rest)).drop pre.length).take
        (pre.length + xs.length - pre.length) ::
      sliceRows (pre ++ (xs ++ flatAll rest)) ((pre.length + xs.length) :: t) =
      xs :: rest
    congr 1
    · rw [List.drop_left pre (xs ++ flatAll rest), Nat.add_sub_cancel_left,
        List.take_left xs (flatAll rest)]
    · have hlen : pre.length + xs.length = (pre ++ xs).length := by
        rw [List.length_append]
      have ht2 : offsetsFrom (pre ++ xs).length rest = (pre ++ xs).length :: t := by
        rw [← hlen]
        exact ht
      rw [← List.append_assoc, hlen, ← ht2]
      exact ih (pre ++ xs)

/-- The last cumulative offset is the start plus the flattened length. -/
theorem offsetsFrom_getLast (s : Nat) (xss : List (List Rat)) :
    (offsetsFrom s xss).getLast? = some (s + (flatAll xss).length) := by
  induction xss generalizing s with
  | nil => simp [offsetsFrom, flatAll]
  | cons xs rest ih =>
    obtain ⟨t, ht⟩ := offsetsFrom_cons_shape (s + xs.length) rest
    show (s :: offsetsFrom (s + xs.length) rest).getLast? = _
    rw [ht, List.getLast?_cons_cons, ← ht, ih]
    show _ = some (s + (xs ++ flatAll rest).length)
    rw [List.length_append, Nat.add_assoc]

/-- Integer round trip through the rational offsets encoding. -/
theorem natOfRat_ratOfNat (n : Nat) : natOfRat (ratOfNat n) = n := by
  simp [natOfRat, ratOfNat]

/-- Mapping offsets to rationals and back is the identity. -/
theorem map_natOfRat_map_ratOfNat (l : List Nat) :
    (l.map ratOfNat).map natOfRat = l := by
  rw [List.map_map]
  refine List.map_congr_left ?_ |>.trans (List.map_id l)
  intro a _
  exact natOfRat_ratOfNat a

/-- One dataframe column survives the round trip through `from_df` and
`to_df` unchanged. -/
theorem dfColFromCol_colFromDf (fw : Framework) (dev : Device) (c : DFColumn) :
    dfColFromCol (colFromDf fw dev c) = c := by
  obtain ⟨dt, data⟩ := c
  cases data with
  | scalars xs => rfl
  | lists xss =>
    show dfColFromCol ⟨⟨fw, dev, dt, flatAll xss⟩,
      some ⟨fw, dev, .int32, (offsetsFrom 0 xss).map ratOfNat⟩⟩ = _
    show (⟨dt, .lists (sliceRows (flatAll xss)
      (((offsetsFrom 0 xss).map ratOfNat).map natOfRat))⟩ : DFColumn) = _
    rw [map_natOfRat_map_ratOfNat]
    have hs := sliceRows_flatAll xss []
    simp only [List.nil_append, List.length_nil] at hs
    rw [hs]

/-- C2: for every columnar dataframe, `to_df` after `from_df` reproduces
the dataframe column-for-column — same names, same order, same dtypes,
same scalar rows for fixed columns and same per-row lists for ragged
columns, including list rows of unequal length. -/
theorem C2_df_round_trip (D : DataFrame) :
    (TensorTable.to_df (TensorTable.from_df D)).cols = D.cols := by
  show (((TensorTable.from_df D).cols).map (fun p => (p.1, dfColFromCol p.2))) =
    D.cols
  unfold TensorTable.from_df
  rw [List.map_map]
  refine List.map_congr_left ?_ |>.trans (List.map_id D.cols)
  intro p _
  show (p.1, dfColFromCol (colFromDf _ _ p.2)) = p
  rw [dfColFromCol_colFromDf]

/-- C5: every ragged column produced by `from_df` has an offsets array
whose last element equals the length of the flattened values array, and
whose dtype is the fixed-width int32 regardless of the values dtype. -/
theorem C5_offsets_invariant (D : DataFrame) (n : String) (c : TensorColumn)
    (off : NPArray) (hc : assocLookup n (TensorTable.from_df D).cols = some c)
    (ho : c.offsets = some off) :
    off.data.getLast? = some (ratOfNat c.values.data.length) ∧
      off.dtype = .int32 := by
  have hmem := assocLookup_some_mem hc
  unfold TensorTable.from_df at hmem
  obtain ⟨p, hp, hpe⟩ := List.mem_map.mp hmem
  obtain ⟨pn, pc⟩ := p
  obtain ⟨dt, pdata⟩ := pc
  injection hpe with hp1 hp2
  cases pdata with
  | scalars xs =>
    rw [← hp2] at ho
    simp [colFromDf] at ho
  | lists xss =>
    rw [← hp2] at ho
    have ho2 : some (⟨_, _, DType.int32, (offsetsFrom 0 xss).map ratOfNat⟩ :
        NPArray) = some off := ho
    injection ho2 with ho2
    rw [← hp2, ← ho2]
    refine ⟨?_, rfl⟩
    show ((offsetsFrom 0 xss).map ratOfNat).getLast? =
      some (ratOfNat (flatAll xss).length)
    rw [List.getLast?_map, offsetsFrom_getLast]
    show some (ratOfNat (0 + (flatAll xss).length)) = _
    rw [Nat.zero_add]

/-- Closed instance of C5 on the worked-example dataframe. -/
theorem C5_offsets_invariant_witness :
    ∃ c off,
      assocLookup "a" (TensorTable.from_df dfExample).cols = some c ∧
      c.offsets = some off ∧
      off.data.getLast? = some (ratOfNat c.values.data.length) ∧
      off.dtype = .int32 := by
  refine ⟨⟨npArr [1, 2, 3, 4, 5, 6, 7],
    some ⟨.numpy, .CPU, .int32, [ratOfNat 0, ratOfNat 3, ratOfNat 7]⟩⟩,
    ⟨.numpy, .CPU, .int32, [ratOfNat 0, ratOfNat 3, ratOfNat 7]⟩, by decide,
    rfl, ?_⟩
  exact C5_offsets_invariant dfExample "a" _ _ (by decide) rfl

/-- C6: on the dataframe input mapping a to the rows [1,2,3] and
[4,5,6,7] and b to the scalars [1,2], the constructed table has exactly
two columns: the ragged column a with values [1,2,3,4,5,6,7] and
offsets [0,3,7], and the fixed column b with values [1,2] and no
offsets. -/
theorem C6_worked_example :
    (TensorTable.from_df dfExample).cols =
      [("a", ⟨npArr [1, 2, 3, 4, 5, 6, 7],
        some ⟨.numpy, .CPU, .int32, [0, 3, 7]⟩⟩),
       ("b", ⟨npArr [1, 2], none⟩)] := by
  decide

/-- C4: `TensorflowColumn` construction from a values/offsets pair whose
tensors are detected on different devices fails with a ValueError naming
both observed devices; when the devices agree or offsets are absent it
succeeds, and the column's device is always the one detected from the
values tensor — the constructor accepts no caller-asserted device. -/
theorem C4_tensorflow_column_device (v : TfTensor) (o : TfTensor) :
    (tfDevice v ≠ tfDevice o →
      tensorflowColumnInit v (some o) = .error (.valueError
        ("Values and offsets were detected on different devices: values ("
          ++ deviceRepr (tfDevice v) ++ ") and offsets ("
          ++ deviceRepr (tfDevice o) ++ ").")))
    ∧ (tfDevice v = tfDevice o →
        tensorflowColumnInit v (some o) = .ok ⟨v, some o, tfDevice v⟩)
    ∧ tensorflowColumnInit v none = .ok ⟨v, none, tfDevice v⟩ := by
  refine ⟨?_, ?_, rfl⟩
  · intro hne
    show (if tfDevice v ≠ tfDevice o then _ else _) = _
    rw [if_pos hne]
  · intro heq
    show (if tfDevice v ≠ tfDevice o then _ else _) = _
    rw [if_neg (fun h => h heq)]

/-- Closed instance of C4 on a host values tensor paired with an
accelerator offsets tensor, and on an agreeing pair. -/
theorem C4_tensorflow_column_device_witness :
    tensorflowColumnInit tfCpuTensor (some tfGpuTensor) = .error (.valueError
      ("Values and offsets were detected on different devices: values ("
        ++ deviceRepr (tfDevice tfCpuTensor) ++ ") and offsets ("
        ++ deviceRepr (tfDevice tfGpuTensor) ++ ")."))
    ∧ tensorflowColumnInit tfGpuTensor (some tfGpuTensor) =
        .ok ⟨tfGpuTensor, some tfGpuTensor, tfDevice tfGpuTensor⟩ :=
  ⟨(C4_tensorflow_column_device tfCpuTensor tfGpuTensor).1 (by decide),
   (C4_tensorflow_column_device tfGpuTensor tfGpuTensor).2.1 rfl⟩

/-- Reduction of `udfInit` on a present function. -/
theorem udfInit_some (fn : PyFuncModel) (dep : Option (List String)) :
    udfInit (some fn) dep =
      if fn.paramCount = 1 ∨ fn.paramCount = 2 then .ok ⟨fn, dep⟩
      else .error (.valueError "UDF must accept either one or two parameters") :=
  rfl

/-- C10: UDF construction raises a ValueError exactly when the function
is missing or declares a parameter count other than one or two; a
constructed UDF therefore has parameter count one or two, and applying
it to a selected column calls the function with the whole transformable
as a second argument exactly when the count is two, and with the column
alone when it is one. -/
theorem C10_udf (f : Option PyFuncModel) (dep : Option (List String)) :
    ((∃ msg, udfInit f dep = .error (.valueError msg)) ↔
      (f = none ∨ ∃ fn, f = some fn ∧ fn.paramCount ≠ 1 ∧ fn.paramCount ≠ 2))
    ∧ (∀ op, udfInit f dep = .ok op →
        op.f.paramCount = 1 ∨ op.f.paramCount = 2)
    ∧ (∀ op t col v, udfInit f dep = .ok op → assocLookup col t = some v →
        udfApplyOne op t col =
          .ok (col, if op.f.paramCount = 2 then op.f.app2 v t
                    else op.f.app1 v)) := by
  refine ⟨?_, ?_, ?_⟩
  · cases f with
    | none =>
      constructor
      · intro _; exact Or.inl rfl
      · intro _
        exact ⟨"UDF requires a function to be supplied, f can not be `None`", rfl⟩
    | some fn =>
      rw [udfInit_some]
      by_cases hp : fn.paramCount = 1 ∨ fn.paramCount = 2
      · rw [if_pos hp]
        constructor
        · rintro ⟨msg, hmsg⟩; cases hmsg
        · rintro (h | ⟨fn', hfn', h1, h2⟩)
          · cases h
          · injection hfn' with hfn'
            subst hfn'
            rcases hp with h | h
            · exact absurd h h1
            · exact absurd h h2
      · rw [if_neg hp]
        constructor
        · intro _
          refine Or.inr ⟨fn, rfl, ?_, ?_⟩
          · intro h1; exact hp (Or.inl h1)
          · intro h2; exact hp (Or.inr h2)
        · intro _
          exact ⟨"UDF must accept either one or two parameters", rfl⟩
  · intro op hop
    cases f with
    | none => cases hop
    | some fn =>
      rw [udfInit_some] at hop
      by_cases hp : fn.paramCount = 1 ∨ fn.paramCount = 2
      · rw [if_pos hp] at hop
        injection hop with hop
        subst hop
        exact hp
      · rw [if_neg hp] at hop
        cases hop
  · intro op t col v hop hv
    have hpc : op.f.paramCount = 1 ∨ op.f.paramCount = 2 := by
      cases f with
      | none => cases hop
      | some fn =>
        rw [udfInit_some] at hop
        by_cases hp : fn.paramCount = 1 ∨ fn.paramCount = 2
        · rw [if_pos hp] at hop
          injection hop with hop
          subst hop
          exact hp
        · rw [if_neg hp] at hop
          cases hop
    unfold udfApplyOne
    rw [hv]
    show (if op.f.paramCount = 2 then Except.ok (col, op.f.app2 v t)
      else if op.f.paramCount = 1 then Except.ok (col, op.f.app1 v)
      else Except.error (PyError.runtimeError "unhandled UDF param count")) = _
    rcases hpc with h1 | h2
    · have hne : ¬(op.f.paramCount = 2) := by rw [h1]; simp
      rw [if_neg hne, if_pos h1, if_neg hne]
    · rw [if_pos h2, if_pos h2]

/-- Closed instance of C10: a three-parameter function is rejected with
a ValueError by construction, and a constructed two-parameter UDF is
applied with the whole transformable as second argument. -/
theorem C10_udf_witness :
    (∃ msg, udfInit (some sampleFunc3) none = .error (.valueError msg))
    ∧ (udfApplyOne ⟨sampleFunc2, none⟩ [("a", npArr [1, 2])] "a" =
        .ok ("a", if sampleFunc2.paramCount = 2 then
          sampleFunc2.app2 (npArr [1, 2]) [("a", npArr [1, 2])]
          else sampleFunc2.app1 (npArr [1, 2]))) := by
  constructor
  · exact (C10_udf (some sampleFunc3) none).1.mpr
      (Or.inr ⟨sampleFunc3, rfl, by decide, by decide⟩)
  · exact (C10_udf (some sampleFunc2) none).2.2 ⟨sampleFunc2, none⟩
      [("a", npArr [1, 2])] "a" (npArr [1, 2]) rfl rfl

/-- Handler lookup over an append prefers the earlier registrations. -/
theorem findHandler_append_some {t : PyTypeRef} {h : Handler}
    {l1 l2 : List (PyTypeRef × Handler)} (hf : findHandler t l1 = some h) :
    findHandler t (l1 ++ l2) = some h := by
  induction l1 with
  | nil => cases hf
  | cons p rest ih =>
    obtain ⟨t', h'⟩ := p
    show (if t' = t then some h' else findHandler t (rest ++ l2)) = some h
    have hf2 : (if t' = t then some h' else findHandler t rest) = some h := hf
    by_cases he : t' = t
    · rw [if_pos he] at hf2 ⊢; exact hf2
    · rw [if_neg he] at hf2 ⊢; exact ih hf2

/-- The lazy-activation step of a dispatch call: the updated registry and
the initializers run, before handler selection. -/
theorem dispatch_step_eq (r : LazyRegistry) (v : PyValue) :
    (dispatch r v).state =
      (match lookupLazy v.type.moduleRoot r.lazyFns with
       | some regs =>
         if v.type.moduleRoot ∈ r.triggered then r
         else { r with
                  handlers := r.handlers ++ regs
                  triggered := v.type.moduleRoot :: r.triggered }
       | none => r) ∧
    (dispatch r v).ranInits =
      (match lookupLazy v.type.moduleRoot r.lazyFns with
       | some _ =>
         if v.type.moduleRoot ∈ r.triggered then []
         else [v.type.moduleRoot]
       | none => []) := by
  unfold dispatch
  cases hl : lookupLazy v.type.moduleRoot r.lazyFns with
  | none =>
    simp only [hl]
    cases findHandler v.type r.handlers <;>
      cases hfb : r.fallback <;> simp [hfb]
  | some regs =>
    simp only [hl]
    by_cases ht : v.type.moduleRoot ∈ r.triggered
    · simp only [if_pos ht]
      cases findHandler v.type r.handlers <;>
        cases hfb : r.fallback <;> simp [hfb]
    · simp only [if_neg ht]
      cases findHandler v.type ({ r with
          handlers := r.handlers ++ regs
          triggered := v.type.moduleRoot :: r.triggered } : LazyRegistry).handlers <;>
        cases hfb : r.fallback <;> simp [hfb]

/-- An initializer runs during a dispatch call only for the value's own
root module, and only when that dependency was not yet triggered; it is
recorded as triggered afterwards. -/
theorem dispatch_ran_sub {r : LazyRegistry} {v : PyValue} {dep : String}
    (h : dep ∈ (dispatch r v).ranInits) :
    dep = v.type.moduleRoot ∧ dep ∉ r.triggered ∧
      dep ∈ (dispatch r v).state.triggered := by
  obtain ⟨hs, hr⟩ := dispatch_step_eq r v
  rw [hr] at h
  cases hl : lookupLazy v.type.moduleRoot r.lazyFns with
  | none => rw [hl] at h; cases h
  | some regs =>
    rw [hl] at h
    by_cases ht : v.type.moduleRoot ∈ r.triggered
    · rw [if_pos ht] at h; cases h
    · rw [if_neg ht] at h
      have he : dep = v.type.moduleRoot := by
        cases h with
        | head => rfl
        | tail _ h2 => cases h2
      subst he
      refine ⟨rfl, ht, ?_⟩
      rw [hs]
      simp [hl, ht]

/-- The triggered record only grows across a dispatch call. -/
theorem dispatch_triggered_mono {r : LazyRegistry} {v : PyValue} {dep : String}
    (h : dep ∈ r.triggered) : dep ∈ (dispatch r v).state.triggered := by
  obtain ⟨hs, -⟩ := dispatch_step_eq r v
  rw [hs]
  cases hl : lookupLazy v.type.moduleRoot r.lazyFns with
  | none => simp only [hl]; exact h
  | some regs =>
    by_cases ht : v.type.moduleRoot ∈ r.triggered
    · simp only [hl, if_pos ht]; exact h
    · simp only [hl, if_neg ht]
      exact List.mem_cons_of_mem _ h

/-- A dispatch sequence started with a dependency already triggered
never runs that dependency's initializer. -/
theorem dispatchSeq_count_zero (dep : String) :
    ∀ (vs : List PyValue) (r : LazyRegistry), dep ∈ r.triggered →
      ((dispatchSeq r vs).2.count dep = 0) := by
  intro vs
  induction vs with
  | nil => intro r _; rfl
  | cons v vs ih =>
    intro r hr
    show ((dispatch r v).ranInits ++ (dispatchSeq (dispatch r v).state vs).2).count dep = 0
    rw [List.count_append]
    have h1 : (dispatch r v).ranInits.count dep = 0 := by
      rw [List.count_eq_zero]
      intro hmem
      exact (dispatch_ran_sub hmem).2.1 hr
    rw [h1, ih (dispatch r v).state (dispatch_triggered_mono hr)]

/-- C7: a dispatch call whose runtime type has no exact handler, no
base/None fallback, and no lazy entry owned by its root module fails
with a NotImplemented error whose message names the unregistered type;
and whenever an exact-type handler is registered, it takes precedence
over any fallback and its result is returned. -/
theorem C7_dispatch_miss_and_precedence (r : LazyRegistry) (v : PyValue) :
    (findHandler v.type r.handlers = none → r.fallback = none →
      lookupLazy v.type.moduleRoot r.lazyFns = none →
      (dispatch r v).result = .error (.notImplementedError
        (r.dispatchName ++ " doesn't have a registered implementation for type "
          ++ v.type.typeName)))
    ∧ (∀ h, findHandler v.type r.handlers = some h →
        (dispatch r v).result = .ok (h v)) := by
  constructor
  · intro hf hfb hl
    unfold dispatch
    simp only [hl, hf, hfb]
  · intro h hf
    unfold dispatch
    cases hl : lookupLazy v.type.moduleRoot r.lazyFns with
    | none => simp only [hl, hf]
    | some regs =>
      by_cases ht : v.type.moduleRoot ∈ r.triggered
      · simp only [hl, if_pos ht, hf]
      · simp only [hl, if_neg ht]
        rw [findHandler_append_some hf]

/-- Closed instance of C7 on the lazy-dispatch test registry: the string
type has no handler anywhere, so dispatch fails naming it, while the
exactly-registered int handler wins. -/
theorem C7_dispatch_miss_witness :
    (dispatch sampleRegistry ⟨strType, "abc"⟩).result =
      .error (.notImplementedError
        ("return_type_name" ++ " doesn't have a registered implementation for type "
          ++ "str"))
    ∧ (dispatch sampleRegistry ⟨intType, "5"⟩).result = .ok "int" :=
  ⟨(C7_dispatch_miss_and_precedence sampleRegistry ⟨strType, "abc"⟩).1
      rfl rfl rfl,
   (C7_dispatch_miss_and_precedence sampleRegistry ⟨intType, "5"⟩).2
      (fun _ => "int") rfl⟩

/-- C8: across any sequence of dispatch calls, each lazy dependency's
initializer runs at most once; the first call whose value's root module
owns an untriggered lazy entry runs exactly that initializer, appends
its registrations, and memoizes the activation; and a call for an
already-triggered dependency never re-runs the initializer. -/
theorem C8_lazy_initializer_once (r : LazyRegistry) :
    (∀ (vs : List PyValue) (dep : String),
      (dispatchSeq r vs).2.count dep ≤ 1)
    ∧ (∀ (v : PyValue) regs,
        lookupLazy v.type.moduleRoot r.lazyFns = some regs →
        v.type.moduleRoot ∉ r.triggered →
        (dispatch r v).ranInits = [v.type.moduleRoot] ∧
        (dispatch r v).state.handlers = r.handlers ++ regs ∧
        v.type.moduleRoot ∈ (dispatch r v).state.triggered)
    ∧ (∀ (v : PyValue) (dep : String), dep ∈ r.triggered →
        dep ∉ (dispatch r v).ranInits) := by
  refine ⟨?_, ?_, ?_⟩
  · intro vs
    induction vs generalizing r with
    | nil => intro dep; simp [dispatchSeq]
    | cons v vs ih =>
      intro dep
      show ((dispatch r v).ranInits ++
        (dispatchSeq (dispatch r v).state vs).2).count dep ≤ 1
      rw [List.count_append]
      by_cases hmem : dep ∈ (dispatch r v).ranInits
      · obtain ⟨he, hnt, htrig⟩ := dispatch_ran_sub hmem
        have h0 := dispatchSeq_count_zero dep vs (dispatch r v).state htrig
        rw [h0]
        obtain ⟨-, hr⟩ := dispatch_step_eq r v
        rw [hr] at hmem ⊢
        cases hl : lookupLazy v.type.moduleRoot r.lazyFns with
        | none => simp only [hl]; simp
        | some regs =>
          simp only [hl]
          by_cases ht : v.type.moduleRoot ∈ r.triggered
          · simp [ht]
          · subst he
            simp [ht, List.count_cons]
      · rw [List.count_eq_zero.mpr hmem]
        have := ih (dispatch r v).state dep
        omega
  · intro v regs hl ht
    obtain ⟨hs, hr⟩ := dispatch_step_eq r v
    refine ⟨?_, ?_, ?_⟩
    · rw [hr]; simp [hl, ht]
    · rw [hs]; simp [hl, ht]
    · rw [hs]; simp [hl, ht]
  · intro v dep hdep hmem
    exact (dispatch_ran_sub hmem).2.1 hdep

/-- Closed instance of C8 on the lazy-dispatch test registry: two
successive tensor dispatches run the tensorflow initializer exactly
once in total, the first call activates it, and a registry with the
dependency already triggered runs nothing. -/
theorem C8_lazy_initializer_once_witness :
    (dispatchSeq sampleRegistry
      [⟨tfTensorType, "t1"⟩, ⟨tfTensorType, "t2"⟩]).2.count "tensorflow" ≤ 1
    ∧ (dispatch sampleRegistry ⟨tfTensorType, "t1"⟩).ranInits = ["tensorflow"]
    ∧ (dispatch sampleRegistry ⟨tfTensorType, "t1"⟩).state.handlers =
        sampleRegistry.handlers ++ tfLazyRegs :=
  ⟨(C8_lazy_initializer_once sampleRegistry).1
      [⟨tfTensorType, "t1"⟩, ⟨tfTensorType, "t2"⟩] "tensorflow",
   ((C8_lazy_initializer_once sampleRegistry).2.1 ⟨tfTensorType, "t1"⟩
      tfLazyRegs rfl (by decide)).1,
   ((C8_lazy_initializer_once sampleRegistry).2.1 ⟨tfTensorType, "t1"⟩
      tfLazyRegs rfl (by decide)).2.1⟩

/-- Converting a column changes only its backend type, which becomes the
target, on both values and offsets. -/
theorem convertColumnTo_arrayType (fw : Framework) (c : TensorColumn) :
    (convertColumnTo fw c).arrayType = fw := rfl

/-- Reduction of `as_tensor_type` on a type-object argument. -/
theorem as_tensor_type_typeArg (t : TensorTable) (name : String) :
    as_tensor_type t (.typeArg name) =
      match registeredColumnType? name with
      | none => .error ⟨.invalidArgument, "Unsupported tensor type: " ++ name⟩
      | some fw =>
        match tableDevice t with
        | some d =>
          if d ∈ supportedDevices fw then
            .ok ⟨t.cols.map (fun (p : String × TensorColumn) =>
              (p.1, convertColumnTo fw p.2))⟩
          else .error ⟨.unsupportedOperation,
            "Unsupported device for tensor type: " ++ name⟩
        | none => .ok ⟨t.cols.map (fun (p : String × TensorColumn) =>
            (p.1, convertColumnTo fw p.2))⟩ := rfl

/-- C9: `as_tensor_type` fails with an InvalidArgument-kind error (the
spec taxonomy covering a non-type or unsupported target) whenever the
argument is not a registered Column subtype — in particular for a plain
string; it fails with an UnsupportedOperation-kind error when the
table's device is not among the target's supported devices; and
otherwise it returns a new table with every column converted to the
target type. -/
theorem C9_as_tensor_type (t : TensorTable) (arg : PyTypeArg) :
    (argColumnType? arg = none →
      ∃ msg, as_tensor_type t arg = .error ⟨.invalidArgument, msg⟩)
    ∧ (∀ fw d, argColumnType? arg = some fw → tableDevice t = some d →
        d ∉ supportedDevices fw →
        ∃ msg, as_tensor_type t arg = .error ⟨.unsupportedOperation, msg⟩)
    ∧ (∀ fw, argColumnType? arg = some fw →
        (∀ d, tableDevice t = some d → d ∈ supportedDevices fw) →
        as_tensor_type t arg =
          .ok ⟨t.cols.map (fun p => (p.1, convertColumnTo fw p.2))⟩ ∧
        ∀ t', as_tensor_type t arg = .ok t' →
          ∀ p ∈ t'.cols, p.2.arrayType = fw) := by
  refine ⟨?_, ?_, ?_⟩
  · intro hnone
    cases arg with
    | strArg s => exact ⟨"The tensor_type argument must be a type", rfl⟩
    | typeArg name =>
      have hr : registeredColumnType? name = none := hnone
      refine ⟨"Unsupported tensor type: " ++ name, ?_⟩
      rw [as_tensor_type_typeArg]
      simp only [hr]
  · intro fw d hfw hd hdev
    cases arg with
    | strArg s => cases hfw
    | typeArg name =>
      have hr : registeredColumnType? name = some fw := hfw
      refine ⟨"Unsupported device for tensor type: " ++ name, ?_⟩
      rw [as_tensor_type_typeArg]
      simp only [hr, hd, if_neg hdev]
  · intro fw hfw hsup
    cases arg with
    | strArg s => cases hfw
    | typeArg name =>
      have hr : registeredColumnType? name = some fw := hfw
      have hok : as_tensor_type t (.typeArg name) =
          .ok ⟨t.cols.map (fun p => (p.1, convertColumnTo fw p.2))⟩ := by
        rw [as_tensor_type_typeArg]
        cases hd : tableDevice t with
        | none => simp only [hr]
        | some d => simp only [hr, if_pos (hsup d hd)]
      refine ⟨hok, ?_⟩
      intro t' ht' p hp
      rw [hok] at ht'
      injection ht' with ht'
      subst ht'
      obtain ⟨q, hq, hqe⟩ := List.mem_map.mp hp
      rw [← hqe]
      rfl

/-- Closed instance of C9 on a one-column host numpy table: a plain
string argument fails with the must-be-a-type InvalidArgument error, an
unregistered type fails with the unsupported-tensor-type error, and a
registered host-capable target converts the table. -/
theorem C9_as_tensor_type_witness :
    (∃ msg, as_tensor_type sampleTableNp (.strArg "not_a_type") =
      .error ⟨.invalidArgument, msg⟩)
    ∧ (∃ msg, as_tensor_type sampleTableNp (.typeArg "ndindex") =
      .error ⟨.invalidArgument, msg⟩)
    ∧ as_tensor_type sampleTableNp (.typeArg "TensorflowColumn") =
        .ok ⟨sampleTableNp.cols.map
          (fun p => (p.1, convertColumnTo .tensorflow p.2))⟩ :=
  ⟨(C9_as_tensor_type sampleTableNp (.strArg "not_a_type")).1 rfl,
   (C9_as_tensor_type sampleTableNp (.typeArg "ndindex")).1 rfl,
   ((C9_as_tensor_type sampleTableNp (.typeArg "TensorflowColumn")).2.2
      .tensorflow rfl (by decide)).1⟩

/-- Folding the majority-count step over a list of identical backend
types never moves off that type. -/
theorem foldl_majority_const (fws : List Framework) :
    ∀ (l : List Framework) (acc f0 : Framework), acc = f0 →
      (∀ f ∈ l, f = f0) →
      l.foldl (fun best fp =>
        if fws.count fp > fws.count best then fp else best) acc = f0 := by
  intro l
  induction l with
  | nil =>
    intro acc f0 hacc _
    simpa using hacc
  | cons f rest ih =>
    intro acc f0 hacc hall
    rw [List.foldl_cons]
    apply ih
    · have hf : f = f0 := hall f (List.mem_cons_self f rest)
      show (if fws.count f > fws.count acc then f else acc) = f0
      rw [hf, hacc]
      exact ite_self f0
    · exact fun g hg => hall g (List.mem_cons_of_mem f hg)

/-- When all columns report one backend type, the majority is that
type. -/
theorem majorityFw_const {cols : List (String × TensorColumn)}
    {c0 : String × TensorColumn} {rest : List (String × TensorColumn)}
    (hc : cols = c0 :: rest) (f0 : Framework)
    (hall : ∀ p ∈ cols, p.2.arrayType = f0) :
    majorityFw (cols.map (fun q => q.2.arrayType)) = f0 := by
  subst hc
  show majorityFw (c0.2.arrayType :: rest.map (fun q => q.2.arrayType)) = f0
  unfold majorityFw
  apply foldl_majority_const
  · exact hall c0 (List.mem_cons_self c0 rest)
  · intro f hf
    rcases List.mem_cons.mp hf with he | hm
    · rw [he]
      exact hall c0 (List.mem_cons_self c0 rest)
    · obtain ⟨q, hq, hqe⟩ := List.mem_map.mp hm
      rw [← hqe]
      exact hall q (List.mem_cons_of_mem c0 hq)

/-- With the grouped columns fixed, `from_mapping` is exactly the two
validations run in order. -/
theorem from_mapping_eq_of_build {raw : List (String × NPArray)}
    {cols : List (String × TensorColumn)}
    (hb : buildTableColumns raw = .ok cols) :
    from_mapping raw =
      (match validateTypes cols with
       | some e => .error e
       | none =>
         match validateDevices cols with
         | some e => .error e
         | none => .ok ⟨cols⟩) := by
  unfold from_mapping
  simp only [hb]

/-- Two columns with different backend types force the type validation
to produce a CrossFramework error. -/
theorem validateTypes_some_of_diff {cols : List (String × TensorColumn)}
    (hdiff : ∃ p ∈ cols, ∃ q ∈ cols, p.2.arrayType ≠ q.2.arrayType) :
    ∃ n fw, validateTypes cols = some (.crossFramework n fw) := by
  obtain ⟨p, hp, q, hq, hpq⟩ := hdiff
  have hex : ∃ x, x ∈ cols ∧
      decide (x.2.arrayType ≠ majorityFw (cols.map (fun r => r.2.arrayType))) = true := by
    by_cases hpm :
      p.2.arrayType = majorityFw (cols.map (fun r => r.2.arrayType))
    · refine ⟨q, hq, ?_⟩
      rw [decide_eq_true_eq]
      intro hqm
      exact hpq (hpm.trans hqm.symm)
    · exact ⟨p, hp, by rw [decide_eq_true_eq]; exact hpm⟩
  have hsome := List.find?_isSome.mpr hex
  cases hf : cols.find? (fun x =>
      decide (x.2.arrayType ≠ majorityFw (cols.map (fun r => r.2.arrayType)))) with
  | none => rw [hf] at hsome; cases hsome
  | some x =>
    refine ⟨x.1, majorityFw (cols.map (fun r => r.2.arrayType)), ?_⟩
    unfold validateTypes
    simp only [hf]

/-- Columns all reporting one backend type pass the type validation. -/
theorem validateTypes_none_of_const {cols : List (String × TensorColumn)}
    (hall : ∀ p ∈ cols, ∀ q ∈ cols, p.2.arrayType = q.2.arrayType) :
    validateTypes cols = none := by
  cases hc : cols with
  | nil => rfl
  | cons c0 rest =>
    have hmaj := majorityFw_const hc c0.2.arrayType
      (fun p hp => hall p (hc ▸ hp) c0 (hc ▸ List.mem_cons_self c0 rest))
    unfold validateTypes
    rw [← hc]
    have hnone : cols.find? (fun x =>
        decide (x.2.arrayType ≠ majorityFw (cols.map (fun r => r.2.arrayType)))) =
        none := by
      rw [List.find?_eq_none]
      intro x hx
      rw [Bool.not_eq_true, decide_eq_false_iff_not, Classical.not_not, hmaj]
      exact hall x hx c0 (hc ▸ List.mem_cons_self c0 rest)
    simp only [hnone]

/-- Two columns on different devices, all backend types agreeing, force
the device validation to produce a CrossDevice error. -/
theorem validateDevices_some_of_diff {cols : List (String × TensorColumn)}
    (hdiff : ∃ p ∈ cols, ∃ q ∈ cols, p.2.device ≠ q.2.device) :
    ∃ n d1 d2, validateDevices cols = some (.crossDevice n d1 d2) := by
  obtain ⟨p, hp, q, hq, hpq⟩ := hdiff
  cases hc : cols with
  | nil => rw [hc] at hp; cases hp
  | cons c0 rest =>
    have hex : ∃ x, x ∈ cols ∧ decide (x.2.device ≠ c0.2.device) = true := by
      by_cases hpm : p.2.device = c0.2.device
      · refine ⟨q, hq, ?_⟩
        rw [decide_eq_true_eq]
        intro hqm
        exact hpq (hpm.trans hqm.symm)
      · exact ⟨p, hp, by rw [decide_eq_true_eq]; exact hpm⟩
    rw [hc] at hex
    have hsome := List.find?_isSome.mpr hex
    cases hf : (c0 :: rest).find? (fun x => decide (x.2.device ≠ c0.2.device)) with
    | none => rw [hf] at hsome; cases hsome
    | some x =>
      refine ⟨x.1, c0.2.device, x.2.device, ?_⟩
      unfold validateDevices
      simp only [hf]

/-- A passing type validation means every column has the majority
type. -/
theorem validateTypes_none_elim {cols : List (String × TensorColumn)}
    (h : validateTypes cols = none) :
    ∃ fw, ∀ p ∈ cols, p.2.arrayType = fw := by
  refine ⟨majorityFw (cols.map (fun r => r.2.arrayType)), ?_⟩
  intro p hp
  unfold validateTypes at h
  cases hf : cols.find? (fun x =>
      decide (x.2.arrayType ≠ majorityFw (cols.map (fun r => r.2.arrayType)))) with
  | some x => simp only [hf] at h; cases h
  | none =>
    have := List.find?_eq_none.mp hf p hp
    rw [Bool.not_eq_true, decide_eq_false_iff_not, Classical.not_not] at this
    exact this

/-- A passing device validation means every column shares one device. -/
theorem validateDevices_none_elim {cols : List (String × TensorColumn)}
    (h : validateDevices cols = none) :
    ∃ d, ∀ p ∈ cols, p.2.device = d := by
  cases hc : cols with
  | nil => exact ⟨.CPU, by intro p hp; cases hp⟩
  | cons c0 rest =>
    refine ⟨c0.2.device, ?_⟩
    intro p hp
    rw [hc] at h
    unfold validateDevices at h
    cases hf : (c0 :: rest).find? (fun x => decide (x.2.device ≠ c0.2.device)) with
    | some x => simp only [hf] at h; cases h
    | none =>
      have := List.find?_eq_none.mp hf p (hc ▸ hp)
      rw [Bool.not_eq_true, decide_eq_false_iff_not, Classical.not_not] at this
      exact this

/-- C3: construction from a mapping whose columns mix two backend types
fails with a CrossFramework error, whichever column is the odd one out;
construction from same-backend columns on two devices fails with a
CrossDevice error; and every successfully constructed table has all
columns sharing exactly one backend type and one device — both checks
run inside construction itself. -/
theorem C3_construction_validation (raw : List (String × NPArray))
    (cols : List (String × TensorColumn))
    (hb : buildTableColumns raw = .ok cols) :
    ((∃ p ∈ cols, ∃ q ∈ cols, p.2.arrayType ≠ q.2.arrayType) →
      ∃ n fw, from_mapping raw = .error (.crossFramework n fw))
    ∧ ((∀ p ∈ cols, ∀ q ∈ cols, p.2.arrayType = q.2.arrayType) →
       (∃ p ∈ cols, ∃ q ∈ cols, p.2.device ≠ q.2.device) →
       ∃ n d1 d2, from_mapping raw = .error (.crossDevice n d1 d2))
    ∧ (∀ t, from_mapping raw = .ok t →
        (∃ fw, ∀ p ∈ t.cols, p.2.arrayType = fw) ∧
        (∃ d, ∀ p ∈ t.cols, p.2.device = d)) := by
  refine ⟨?_, ?_, ?_⟩
  · intro hdiff
    obtain ⟨n, fw, hv⟩ := validateTypes_some_of_diff hdiff
    refine ⟨n, fw, ?_⟩
    rw [from_mapping_eq_of_build hb]
    simp only [hv]
  · intro hconst hdiff
    obtain ⟨n, d1, d2, hv⟩ := validateDevices_some_of_diff hdiff
    refine ⟨n, d1, d2, ?_⟩
    rw [from_mapping_eq_of_build hb]
    simp only [validateTypes_none_of_const hconst, hv]
  · intro t ht
    obtain ⟨hb2, hvt, hvd⟩ := from_mapping_ok_parts ht
    exact ⟨validateTypes_none_elim hvt, validateDevices_none_elim hvd⟩

/-- Closed instance of C3: the numpy-plus-tensorflow mapping fails with
a CrossFramework error, the two-device tensorflow mapping fails with a
CrossDevice error, and the homogeneous example table has one backend
type and one device throughout. -/
theorem C3_construction_validation_witness :
    (∃ n fw, from_mapping mixedRaw = .error (.crossFramework n fw))
    ∧ (∃ n d1 d2, from_mapping deviceRaw = .error (.crossDevice n d1 d2))
    ∧ ((∃ fw, ∀ p ∈ tableExample.cols, p.2.arrayType = fw) ∧
       (∃ d, ∀ p ∈ tableExample.cols, p.2.device = d)) := by
  refine ⟨?_, ?_, ?_⟩
  · exact (C3_construction_validation mixedRaw
      [("a", ⟨npArr [1, 2, 3], some (npArr32 [0, 1, 3])⟩),
       ("b", ⟨tfArr [4, 5, 6], none⟩)] (by rfl)).1 (by decide)
  · exact (C3_construction_validation deviceRaw
      [("a", ⟨⟨.tensorflow, .CPU, .int64, [1, 2, 3]⟩, none⟩),
       ("b", ⟨⟨.tensorflow, .GPU, .int64, [1, 2, 3]⟩, none⟩)] (by rfl)).2.1
      (by decide) (by decide)
  · exact (C3_construction_validation rawExample tableExample.cols
      (by rfl)).2.2 tableExample (by rfl)
